import Mathlib

/-!
Shallow embedding of the conversation-synchronization widget of the
ecommerce-support repository.

Two source variants are embedded side by side:

* the id-set variant (`src/unnamed/part_000`): state
  `displayedMessageIds` / `lastMessageCount` / `isPolling`, poll deduplicates
  by a set of already-rendered ids, and a successful send triggers an
  immediate out-of-band poll instead of rendering the direct response;
* the count-slicing variant (`src/frontend/app.js`): state
  `lastMessageCount` / `isPolling`, poll slices history at
  `lastMessageCount`, and a successful send renders the direct response and
  bumps the count.

The DOM transcript (`chatDisplay`) is a list of nodes: ordinary message
bubbles (`addMessage`) and typing-indicator placeholders carrying a DOM id
(`addTypingIndicator` / `removeTypingIndicator`).  Network outcomes are
explicit inputs (`PollResponse`, `ChatResult`): a run of `pollMessages` or
`sendMessage` is a pure state transformer parameterised by the outcome of
its fetches.  Each transformer additionally threads a ghost trace: the list
of message ids rendered by poll processing (to state dedup properties) and a
boolean telling whether the run issued its network request (to state no-op
properties).
-/

/-- A history entry returned by `GET /chat/history`: `{id, role, content}`. -/
structure Msg where
  id : Nat
  role : String
  content : String
  deriving DecidableEq, Repr

/-- A child node of the `chat-display` element: either a rendered message
bubble (`addMessage text sender`) or a typing-indicator placeholder whose
DOM id is its token. -/
inductive Node where
  | message (text : String) (sender : String)
  | typing (domId : String)
  deriving DecidableEq, Repr

/-- State of the id-set variant (`src/unnamed/part_000`): the DOM transcript,
the dedup ledger `displayedMessageIds`, the (vestigial) `lastMessageCount`,
and the poll guard `isPolling`. -/
structure SyncState where
  chatDisplay : List Node
  displayedMessageIds : List Nat
  lastMessageCount : Nat
  isPolling : Bool
  deriving DecidableEq, Repr

/-- State of the count-slicing variant (`src/frontend/app.js`): the DOM
transcript, the running count `lastMessageCount`, and the poll guard. -/
structure CountState where
  chatDisplay : List Node
  lastMessageCount : Nat
  isPolling : Bool
  deriving DecidableEq, Repr

/-- Outcome of the `GET /chat/history` fetch: a decoded message list
(`response.ok` with a JSON body), a non-success status (`response.ok`
false), or a thrown transport/decode error. -/
inductive PollResponse where
  | success (messages : List Msg)
  | badStatus
  | failure
  deriving DecidableEq, Repr

/-- Outcome of the `POST /chat` fetch: a decoded body whose `response` field
is the given string (the empty string standing for an absent/empty field),
or a thrown transport/decode error. -/
inductive ChatResult where
  | success (response : String)
  | failure
  deriving DecidableEq, Repr

/-- JavaScript `String.prototype.trim`: strip leading and trailing
whitespace.  (Lean's own `String.trim` is not kernel-reducible, so the
operation is spelled out over the character list.) -/
def trimString (s : String) : String :=
  String.mk (((s.data.dropWhile Char.isWhitespace).reverse.dropWhile
    Char.isWhitespace).reverse)

/-- `addMessage(text, sender)`: append a message bubble to the transcript. -/
def addMessage (text sender : String) (s : SyncState) : SyncState :=
  { s with chatDisplay := s.chatDisplay ++ [Node.message text sender] }

/-- `addTypingIndicator()`: append a typing placeholder whose DOM id is
derived from the current time, and return that id. -/
def addTypingIndicator (now : Nat) (s : SyncState) : String × SyncState :=
  ("typing-" ++ toString now,
   { s with chatDisplay := s.chatDisplay ++ [Node.typing ("typing-" ++ toString now)] })

/-- Whether a transcript node carries the given DOM id (only typing
placeholders are given ids by this program). -/
def nodeHasId (domId : String) : Node → Bool
  | Node.typing t => t == domId
  | Node.message _ _ => false

/-- `removeTypingIndicator(id)`: `document.getElementById(id)` finds the
first element with that id, `el.remove()` deletes it; absent id is a no-op. -/
def removeTypingIndicator (domId : String) (s : SyncState) : SyncState :=
  { s with chatDisplay := s.chatDisplay.eraseP (nodeHasId domId) }

/-- One iteration of the `messages.forEach` body of the id-set
`pollMessages` (part_000 lines 75-82), threading the ghost trace of rendered
ids: skip an id already in `displayedMessageIds`; otherwise render
assistant/human entries with display sender "assistant" and record the id. -/
def processMessageT (sl : SyncState × List Nat) (m : Msg) : SyncState × List Nat :=
  if m.id ∈ sl.1.displayedMessageIds then sl
  else if m.role = "assistant" ∨ m.role = "human" then
    (({ (addMessage m.content "assistant" sl.1) with
        displayedMessageIds := sl.1.displayedMessageIds ++ [m.id] }), sl.2 ++ [m.id])
  else sl

/-- The id-set `pollMessages` (part_000 lines 59-90) as a state transformer.
Returns the new state, the extended ghost render trace, and whether the
history fetch was issued.  Guard: no-op while `isPolling` or when the
trimmed email is empty; `isPolling` is set for the duration of the run and
cleared on every completion path (the `finally`); `lastMessageCount` is set
to the history length only on a decoded success. -/
def pollMessagesFull (email : String) (resp : PollResponse)
    (sl : SyncState × List Nat) : (SyncState × List Nat) × Bool :=
  if sl.1.isPolling then (sl, false)
  else if trimString email = "" then (sl, false)
  else
    match resp with
    | PollResponse.success messages =>
        let r := messages.foldl processMessageT ({ sl.1 with isPolling := true }, sl.2)
        ((({ r.1 with lastMessageCount := messages.length, isPolling := false }), r.2), true)
    | PollResponse.badStatus => ((({ sl.1 with isPolling := false }), sl.2), true)
    | PollResponse.failure => ((({ sl.1 with isPolling := false }), sl.2), true)

/-- The state-and-trace part of `pollMessagesFull`. -/
def pollMessagesT (email : String) (resp : PollResponse)
    (sl : SyncState × List Nat) : SyncState × List Nat :=
  (pollMessagesFull email resp sl).1

/-- A sequence of scheduled poll cycles of the id-set variant, one
`PollResponse` per cycle. -/
def runPolls (email : String) (resps : List PollResponse)
    (sl : SyncState × List Nat) : SyncState × List Nat :=
  resps.foldl (fun acc r => pollMessagesT email r acc) sl

/-- The id-set `sendMessage` (part_000 lines 95-139).  Validation guard on
the trimmed text and email; local echo with sender "user";
`lastMessageCount` incremented optimistically; typing indicator shown and
removed once the chat fetch resolves; on a decoded body with a non-empty
`response` field the run triggers an immediate poll (whose history outcome
is the `pollResp` argument) instead of rendering the direct response; on an
empty/absent `response` field or a thrown error a single synthetic
assistant entry is rendered.  The boolean tells whether the `/chat` request
was issued. -/
def sendMessageFull (messageRaw emailRaw : String) (now : Nat) (chat : ChatResult)
    (pollResp : PollResponse) (sl : SyncState × List Nat) :
    (SyncState × List Nat) × Bool :=
  if trimString messageRaw = "" ∨ trimString emailRaw = "" then (sl, false)
  else
    let s2 := { (addMessage (trimString messageRaw) "user" sl.1) with
                lastMessageCount := sl.1.lastMessageCount + 1 }
    let tp := addTypingIndicator now s2
    match chat with
    | ChatResult.success response =>
        let s4 := removeTypingIndicator tp.1 tp.2
        if response = "" then
          ((addMessage "Sorry, I encountered an error. Please try again." "assistant" s4,
            sl.2), true)
        else
          (pollMessagesT emailRaw pollResp (s4, sl.2), true)
    | ChatResult.failure =>
        ((addMessage "Connection error. Is the backend running?" "assistant"
            (removeTypingIndicator tp.1 tp.2), sl.2), true)

/-- The state-and-trace part of `sendMessageFull`. -/
def sendMessageT (messageRaw emailRaw : String) (now : Nat) (chat : ChatResult)
    (pollResp : PollResponse) (sl : SyncState × List Nat) : SyncState × List Nat :=
  (sendMessageFull messageRaw emailRaw now chat pollResp sl).1

/-- `addMessage` of the count-slicing variant. -/
def addMessageC (text sender : String) (s : CountState) : CountState :=
  { s with chatDisplay := s.chatDisplay ++ [Node.message text sender] }

/-- `removeTypingIndicator` of the count-slicing variant. -/
def removeTypingIndicatorC (domId : String) (s : CountState) : CountState :=
  { s with chatDisplay := s.chatDisplay.eraseP (nodeHasId domId) }

/-- One iteration of the `newMsgs.forEach` body of the count-slicing
`pollMessages` (app.js lines 47-51): no id check, assistant/human entries
are rendered with display sender "assistant"; the ghost trace records the
rendered entry's id. -/
def processMessageCountT (sl : CountState × List Nat) (m : Msg) : CountState × List Nat :=
  if m.role = "assistant" ∨ m.role = "human" then
    (addMessageC m.content "assistant" sl.1, sl.2 ++ [m.id])
  else sl

/-- The count-slicing `pollMessages` (app.js lines 32-60): on a decoded
success with `messages.length > lastMessageCount`, render the slice
`messages.slice(lastMessageCount)` and set the count to the new length;
otherwise leave the count untouched. -/
def pollMessagesCountFull (email : String) (resp : PollResponse)
    (sl : CountState × List Nat) : (CountState × List Nat) × Bool :=
  if sl.1.isPolling then (sl, false)
  else if trimString email = "" then (sl, false)
  else
    match resp with
    | PollResponse.success messages =>
        if sl.1.lastMessageCount < messages.length then
          let r := (messages.drop sl.1.lastMessageCount).foldl processMessageCountT
            ({ sl.1 with isPolling := true }, sl.2)
          ((({ r.1 with lastMessageCount := messages.length, isPolling := false }), r.2), true)
        else ((({ sl.1 with isPolling := false }), sl.2), true)
    | PollResponse.badStatus => ((({ sl.1 with isPolling := false }), sl.2), true)
    | PollResponse.failure => ((({ sl.1 with isPolling := false }), sl.2), true)

/-- The state-and-trace part of `pollMessagesCountFull`. -/
def pollMessagesCountT (email : String) (resp : PollResponse)
    (sl : CountState × List Nat) : CountState × List Nat :=
  (pollMessagesCountFull email resp sl).1

/-- A sequence of scheduled poll cycles of the count-slicing variant. -/
def runPollsCount (email : String) (resps : List PollResponse)
    (sl : CountState × List Nat) : CountState × List Nat :=
  resps.foldl (fun acc r => pollMessagesCountT email r acc) sl

/-- The count-slicing `sendMessage` (app.js lines 65-107): same validation
guard and local echo; on a decoded body with non-empty `response` the direct
response is rendered and `lastMessageCount` incremented a second time. -/
def sendMessageCountFull (messageRaw emailRaw : String) (now : Nat)
    (chat : ChatResult) (sl : CountState × List Nat) : (CountState × List Nat) × Bool :=
  if trimString messageRaw = "" ∨ trimString emailRaw = "" then (sl, false)
  else
    let s2 := { (addMessageC (trimString messageRaw) "user" sl.1) with
                lastMessageCount := sl.1.lastMessageCount + 1 }
    let s3 := { s2 with chatDisplay := s2.chatDisplay ++ [Node.typing ("typing-" ++ toString now)] }
    match chat with
    | ChatResult.success response =>
        let s4 := removeTypingIndicatorC ("typing-" ++ toString now) s3
        if response = "" then
          ((addMessageC "Sorry, I encountered an error. Please try again." "assistant" s4,
            sl.2), true)
        else
          (({ (addMessageC response "assistant" s4) with
              lastMessageCount := s4.lastMessageCount + 1 }, sl.2), true)
    | ChatResult.failure =>
        ((addMessageC "Connection error. Is the backend running?" "assistant"
            (removeTypingIndicatorC ("typing-" ++ toString now) s3), sl.2), true)

/-- Dedup budget of an id against a ledger and a render trace: the number of
times the id appears in the trace, plus one pending render allowance when
the id is not yet in the ledger.  Non-increasing along every poll step. -/
def renderBudget (i : Nat) (seen trace : List Nat) : Nat :=
  trace.count i + (if i ∈ seen then 0 else 1)

/-- Projections of a state whose `lastMessageCount`/`isPolling` were set. -/
theorem setFields_displayedMessageIds (x : SyncState) (n : Nat) (b : Bool) :
    ({ x with lastMessageCount := n, isPolling := b } : SyncState).displayedMessageIds
      = x.displayedMessageIds := rfl

/-- `isPolling := true` leaves the dedup ledger unchanged. -/
theorem setPolling_displayedMessageIds (x : SyncState) (b : Bool) :
    ({ x with isPolling := b } : SyncState).displayedMessageIds = x.displayedMessageIds := rfl

/-- Setting `isPolling` to its current value is the identity. -/
theorem setPolling_self (s : SyncState) (h : s.isPolling = false) :
    ({ s with isPolling := false } : SyncState) = s := by
  cases s
  simp_all

/-- Setting `isPolling` to its current value is the identity (count variant). -/
theorem setPollingC_self (c : CountState) (h : c.isPolling = false) :
    ({ c with isPolling := false } : CountState) = c := by
  cases c
  simp_all

/-- One poll-processing step never increases the dedup budget of any id. -/
theorem processMessageT_budget (i : Nat) (sl : SyncState × List Nat) (m : Msg) :
    renderBudget i (processMessageT sl m).1.displayedMessageIds (processMessageT sl m).2 ≤
      renderBudget i sl.1.displayedMessageIds sl.2 := by
  by_cases h1 : m.id ∈ sl.1.displayedMessageIds
  · simp [processMessageT, h1]
  · by_cases h2 : m.role = "assistant" ∨ m.role = "human"
    · by_cases h3 : i = m.id
      · subst h3
        simp [processMessageT, h1, h2, renderBudget, addMessage, List.count_append]
      · simp [processMessageT, h1, h2, renderBudget, addMessage, List.count_append,
          List.count_cons, List.count_nil, h3, Ne.symm h3]
    · simp [processMessageT, h1, h2]

/-- Folding poll processing over a history never increases the budget. -/
theorem foldl_processMessageT_budget (i : Nat) (msgs : List Msg) (sl : SyncState × List Nat) :
    renderBudget i (msgs.foldl processMessageT sl).1.displayedMessageIds
        (msgs.foldl processMessageT sl).2 ≤
      renderBudget i sl.1.displayedMessageIds sl.2 := by
  induction msgs generalizing sl with
  | nil => exact Nat.le_refl _
  | cons m rest ih =>
      simp only [List.foldl_cons]
      exact Nat.le_trans (ih (processMessageT sl m)) (processMessageT_budget i sl m)

/-- One poll cycle of the id-set variant never increases the budget. -/
theorem pollMessagesT_budget (i : Nat) (email : String) (resp : PollResponse)
    (sl : SyncState × List Nat) :
    renderBudget i (pollMessagesT email resp sl).1.displayedMessageIds
        (pollMessagesT email resp sl).2 ≤
      renderBudget i sl.1.displayedMessageIds sl.2 := by
  unfold pollMessagesT pollMessagesFull
  by_cases h1 : sl.1.isPolling
  · simp [h1]
  · by_cases h2 : trimString email = ""
    · simp [h1, h2]
    · cases resp with
      | success msgs =>
          simp only [h1, h2, Bool.false_eq_true, if_false, if_neg, not_false_iff]
          have := foldl_processMessageT_budget i msgs ({ sl.1 with isPolling := true }, sl.2)
          simpa [setFields_displayedMessageIds, setPolling_displayedMessageIds] using this
      | badStatus => simp [h1, h2, renderBudget]
      | failure => simp [h1, h2, renderBudget]

/-- A whole sequence of poll cycles never increases the budget. -/
theorem runPolls_budget (i : Nat) (email : String) (resps : List PollResponse)
    (sl : SyncState × List Nat) :
    renderBudget i (runPolls email resps sl).1.displayedMessageIds
        (runPolls email resps sl).2 ≤
      renderBudget i sl.1.displayedMessageIds sl.2 := by
  induction resps generalizing sl with
  | nil => exact Nat.le_refl _
  | cons r rest ih =>
      simp only [runPolls, List.foldl_cons]
      exact Nat.le_trans (ih (pollMessagesT email r sl)) (pollMessagesT_budget i email r sl)

/-- The ghost render trace only grows along a processing step. -/
theorem processMessageT_count_mono (i : Nat) (sl : SyncState × List Nat) (m : Msg) :
    sl.2.count i ≤ (processMessageT sl m).2.count i := by
  by_cases h1 : m.id ∈ sl.1.displayedMessageIds
  · simp [processMessageT, h1]
  · by_cases h2 : m.role = "assistant" ∨ m.role = "human"
    · simp [processMessageT, h1, h2, List.count_append]
    · simp [processMessageT, h1, h2]

/-- The ghost render trace only grows along a fold over a history. -/
theorem foldl_processMessageT_count_mono (i : Nat) (msgs : List Msg)
    (sl : SyncState × List Nat) :
    sl.2.count i ≤ (msgs.foldl processMessageT sl).2.count i := by
  induction msgs generalizing sl with
  | nil => exact Nat.le_refl _
  | cons m rest ih =>
      simp only [List.foldl_cons]
      exact Nat.le_trans (processMessageT_count_mono i sl m) (ih (processMessageT sl m))

/-- The ghost render trace only grows along a poll cycle. -/
theorem pollMessagesT_count_mono (i : Nat) (email : String) (resp : PollResponse)
    (sl : SyncState × List Nat) :
    sl.2.count i ≤ (pollMessagesT email resp sl).2.count i := by
  unfold pollMessagesT pollMessagesFull
  by_cases h1 : sl.1.isPolling
  · simp [h1]
  · by_cases h2 : trimString email = ""
    · simp [h1, h2]
    · cases resp with
      | success msgs =>
          simp only [h1, h2, Bool.false_eq_true, if_false, if_neg, not_false_iff]
          exact foldl_processMessageT_count_mono i msgs ({ sl.1 with isPolling := true }, sl.2)
      | badStatus => simp [h1, h2]
      | failure => simp [h1, h2]

/-- The ghost render trace only grows along a sequence of poll cycles. -/
theorem runPolls_count_mono (i : Nat) (email : String) (resps : List PollResponse)
    (sl : SyncState × List Nat) :
    sl.2.count i ≤ (runPolls email resps sl).2.count i := by
  induction resps generalizing sl with
  | nil => exact Nat.le_refl _
  | cons r rest ih =>
      simp only [runPolls, List.foldl_cons]
      exact Nat.le_trans (pollMessagesT_count_mono i email r sl) (ih (pollMessagesT email r sl))

/-- The dedup ledger only grows along a processing step. -/
theorem processMessageT_seen_mono (sl : SyncState × List Nat) (m : Msg) (i : Nat)
    (h : i ∈ sl.1.displayedMessageIds) :
    i ∈ (processMessageT sl m).1.displayedMessageIds := by
  by_cases h1 : m.id ∈ sl.1.displayedMessageIds
  · simpa [processMessageT, h1] using h
  · by_cases h2 : m.role = "assistant" ∨ m.role = "human"
    · simp [processMessageT, h1, h2, List.mem_append, h]
    · simpa [processMessageT, h1, h2] using h

/-- The dedup ledger only grows along a fold over a history. -/
theorem foldl_seen_mono (msgs : List Msg) (sl : SyncState × List Nat) (i : Nat)
    (h : i ∈ sl.1.displayedMessageIds) :
    i ∈ (msgs.foldl processMessageT sl).1.displayedMessageIds := by
  induction msgs generalizing sl with
  | nil => exact h
  | cons m rest ih =>
      simp only [List.foldl_cons]
      exact ih (processMessageT sl m) (processMessageT_seen_mono sl m i h)

/-- A processing step adds to the ledger nothing but the processed id. -/
theorem processMessageT_seen_cases (sl : SyncState × List Nat) (m : Msg) (i : Nat)
    (h : i ∈ (processMessageT sl m).1.displayedMessageIds) :
    i ∈ sl.1.displayedMessageIds ∨ i = m.id := by
  by_cases h1 : m.id ∈ sl.1.displayedMessageIds
  · exact Or.inl (by simpa [processMessageT, h1] using h)
  · by_cases h2 : m.role = "assistant" ∨ m.role = "human"
    · simpa [processMessageT, h1, h2, List.mem_append] using h
    · exact Or.inl (by simpa [processMessageT, h1, h2] using h)

/-- A processing step leaves the trace count of every other id unchanged. -/
theorem processMessageT_count_ne (sl : SyncState × List Nat) (m : Msg) (i : Nat)
    (h : i ≠ m.id) : (processMessageT sl m).2.count i = sl.2.count i := by
  by_cases h1 : m.id ∈ sl.1.displayedMessageIds
  · simp [processMessageT, h1]
  · by_cases h2 : m.role = "assistant" ∨ m.role = "human"
    · simp [processMessageT, h1, h2, List.count_append, List.count_cons, List.count_nil,
        h, Ne.symm h]
    · simp [processMessageT, h1, h2]

/-- An id already in the ledger is never rendered by a fold over a history:
its trace count is unchanged. -/
theorem foldl_count_stable (msgs : List Msg) (sl : SyncState × List Nat) (i : Nat)
    (h : i ∈ sl.1.displayedMessageIds) :
    (msgs.foldl processMessageT sl).2.count i = sl.2.count i := by
  refine Nat.le_antisymm ?_ (foldl_processMessageT_count_mono i msgs sl)
  have hb := foldl_processMessageT_budget i msgs sl
  have hcle : (msgs.foldl processMessageT sl).2.count i ≤
      renderBudget i (msgs.foldl processMessageT sl).1.displayedMessageIds
        (msgs.foldl processMessageT sl).2 := Nat.le_add_right _ _
  have : renderBudget i sl.1.displayedMessageIds sl.2 = sl.2.count i := by
    simp [renderBudget, h]
  omega

/-- The transcript only grows along a fold over a history, and every node it
adds is a message bubble with display sender "assistant". -/
theorem processMessageT_display_append (sl : SyncState × List Nat) (m : Msg) :
    ∃ t, (processMessageT sl m).1.chatDisplay = sl.1.chatDisplay ++ t ∧
      ∀ n ∈ t, ∃ c, n = Node.message c "assistant" := by
  by_cases h1 : m.id ∈ sl.1.displayedMessageIds
  · exact ⟨[], by simp [processMessageT, h1], by simp⟩
  · by_cases h2 : m.role = "assistant" ∨ m.role = "human"
    · refine ⟨[Node.message m.content "assistant"], ?_, ?_⟩
      · simp [processMessageT, h1, h2, addMessage]
      · intro n hn
        simp only [List.mem_singleton] at hn
        exact ⟨m.content, hn⟩
    · exact ⟨[], by simp [processMessageT, h1, h2], by simp⟩

/-- Fold version of `processMessageT_display_append`. -/
theorem foldl_display_append (msgs : List Msg) (sl : SyncState × List Nat) :
    ∃ t, (msgs.foldl processMessageT sl).1.chatDisplay = sl.1.chatDisplay ++ t ∧
      ∀ n ∈ t, ∃ c, n = Node.message c "assistant" := by
  induction msgs generalizing sl with
  | nil => exact ⟨[], by simp, by simp⟩
  | cons m rest ih =>
      obtain ⟨t1, ht1, ha1⟩ := processMessageT_display_append sl m
      obtain ⟨t2, ht2, ha2⟩ := ih (processMessageT sl m)
      refine ⟨t1 ++ t2, ?_, ?_⟩
      · simp only [List.foldl_cons, ht2, ht1, List.append_assoc]
      · intro n hn
        rcases List.mem_append.mp hn with h | h
        · exact ha1 n h
        · exact ha2 n h

/-- A node already in the transcript survives a fold over a history. -/
theorem foldl_display_mono (msgs : List Msg) (sl : SyncState × List Nat) (n : Node)
    (h : n ∈ sl.1.chatDisplay) : n ∈ (msgs.foldl processMessageT sl).1.chatDisplay := by
  obtain ⟨t, ht, -⟩ := foldl_display_append msgs sl
  rw [ht]
  exact List.mem_append_left t h

/-- A fresh assistant/human entry of a duplicate-free history is rendered by
the fold exactly once: its trace count goes up by one, its id enters the
ledger, and its bubble is in the transcript. -/
theorem foldl_renders (msgs : List Msg) (sl : SyncState × List Nat) (m : Msg)
    (hm : m ∈ msgs) (hrole : m.role = "assistant" ∨ m.role = "human")
    (hfresh : m.id ∉ sl.1.displayedMessageIds)
    (hnodup : (msgs.map Msg.id).Nodup) :
    (msgs.foldl processMessageT sl).2.count m.id = sl.2.count m.id + 1 ∧
    m.id ∈ (msgs.foldl processMessageT sl).1.displayedMessageIds ∧
    Node.message m.content "assistant" ∈ (msgs.foldl processMessageT sl).1.chatDisplay := by
  induction msgs generalizing sl with
  | nil => cases hm
  | cons hd rest ih =>
      simp only [List.map_cons, List.nodup_cons] at hnodup
      rcases List.mem_cons.mp hm with rfl | hmem
      · have hstep : processMessageT sl m =
            (({ (addMessage m.content "assistant" sl.1) with
                displayedMessageIds := sl.1.displayedMessageIds ++ [m.id] }), sl.2 ++ [m.id]) := by
          simp [processMessageT, hfresh, hrole]
        simp only [List.foldl_cons, hstep]
        have hmemseen : m.id ∈
            ((({ (addMessage m.content "assistant" sl.1) with
                displayedMessageIds := sl.1.displayedMessageIds ++ [m.id] }) : SyncState),
              sl.2 ++ [m.id]).1.displayedMessageIds := by
          simp
        refine ⟨?_, ?_, ?_⟩
        · rw [foldl_count_stable _ _ _ hmemseen]
          simp [List.count_append]
        · exact foldl_seen_mono _ _ _ hmemseen
        · refine foldl_display_mono _ _ _ ?_
          simp [addMessage]
      · have hne : hd.id ≠ m.id := by
          intro he
          exact hnodup.1 (he ▸ List.mem_map_of_mem Msg.id hmem)
        have hfresh2 : m.id ∉ (processMessageT sl hd).1.displayedMessageIds := by
          intro hin
          rcases processMessageT_seen_cases sl hd m.id hin with h | h
          · exact hfresh h
          · exact hne h.symm
        have := ih (processMessageT sl hd) hmem hfresh2 hnodup.2
        simp only [List.foldl_cons]
        refine ⟨?_, this.2.1, this.2.2⟩
        rw [this.1, processMessageT_count_ne sl hd m.id (Ne.symm hne)]

/-- A fresh assistant/human entry of a duplicate-free history is rendered
exactly once by a poll cycle that passes the guard. -/
theorem pollMessagesT_renders (email : String) (msgs : List Msg)
    (sl : SyncState × List Nat) (m : Msg) (hm : m ∈ msgs)
    (hrole : m.role = "assistant" ∨ m.role = "human")
    (hfresh : m.id ∉ sl.1.displayedMessageIds)
    (hnodup : (msgs.map Msg.id).Nodup)
    (hidle : sl.1.isPolling = false) (hemail : trimString email ≠ "") :
    (pollMessagesT email (PollResponse.success msgs) sl).2.count m.id
        = sl.2.count m.id + 1 ∧
    m.id ∈ (pollMessagesT email (PollResponse.success msgs) sl).1.displayedMessageIds ∧
    Node.message m.content "assistant" ∈
      (pollMessagesT email (PollResponse.success msgs) sl).1.chatDisplay := by
  have h := foldl_renders msgs ({ sl.1 with isPolling := true }, sl.2) m hm hrole
    (by simpa using hfresh) hnodup
  unfold pollMessagesT pollMessagesFull
  simp only [hidle, hemail, Bool.false_eq_true, if_false, if_neg, not_false_iff]
  simpa using h

/-- C1: across any sequence of poll cycles of the id-set variant, an entry
with a given server-assigned id is rendered at most once, and an id already
in the dedup ledger is never rendered again. -/
theorem poll_dedup_at_most_once (email : String) (resps : List PollResponse)
    (s : SyncState) (i : Nat) :
    (runPolls email resps (s, [])).2.count i ≤ 1 ∧
    (i ∈ s.displayedMessageIds → (runPolls email resps (s, [])).2.count i = 0) := by
  have hb := runPolls_budget i email resps (s, [])
  have hcle : (runPolls email resps (s, [])).2.count i ≤
      renderBudget i (runPolls email resps (s, [])).1.displayedMessageIds
        (runPolls email resps (s, [])).2 := Nat.le_add_right _ _
  constructor
  · have hinit : renderBudget i (s, ([] : List Nat)).1.displayedMessageIds
        (s, ([] : List Nat)).2 ≤ 1 := by
      by_cases h : i ∈ s.displayedMessageIds <;> simp [renderBudget, h]
    omega
  · intro hmem
    have hinit : renderBudget i (s, ([] : List Nat)).1.displayedMessageIds
        (s, ([] : List Nat)).2 = 0 := by
      simp [renderBudget, hmem]
    omega

/-- Witness for C1 at a concrete double-delivery of the same id. -/
theorem poll_dedup_at_most_once_witness :
    (runPolls "a@b" [PollResponse.success [⟨1, "assistant", "hi"⟩],
        PollResponse.success [⟨1, "assistant", "hi"⟩]]
      ((⟨[], [], 0, false⟩ : SyncState), [])).2.count 1 ≤ 1 :=
  (poll_dedup_at_most_once "a@b"
    [PollResponse.success [⟨1, "assistant", "hi"⟩],
     PollResponse.success [⟨1, "assistant", "hi"⟩]] ⟨[], [], 0, false⟩ 1).1

/-- C2: a validated send whose chat request decodes with a non-empty
response renders the turn's assistant entry via the single triggered poll
(the direct response is not rendered by `send` itself), and across any later
scheduled polls the turn is rendered exactly once in total. -/
theorem send_no_lost_turn (messageRaw emailRaw : String) (now : Nat) (response : String)
    (msgs : List Msg) (m : Msg) (s : SyncState) (laterResps : List PollResponse)
    (hmsg : trimString messageRaw ≠ "") (hemail : trimString emailRaw ≠ "")
    (hresp : response ≠ "") (hidle : s.isPolling = false)
    (hm : m ∈ msgs) (hrole : m.role = "assistant") (hcontent : m.content = response)
    (hfresh : m.id ∉ s.displayedMessageIds) (hnodup : (msgs.map Msg.id).Nodup) :
    Node.message response "assistant" ∈
      (sendMessageT messageRaw emailRaw now (ChatResult.success response)
        (PollResponse.success msgs) (s, [])).1.chatDisplay ∧
    (runPolls emailRaw laterResps
        (sendMessageT messageRaw emailRaw now (ChatResult.success response)
          (PollResponse.success msgs) (s, []))).2.count m.id = 1 := by
  have hsend : sendMessageT messageRaw emailRaw now (ChatResult.success response)
      (PollResponse.success msgs) (s, []) =
      pollMessagesT emailRaw (PollResponse.success msgs)
        (removeTypingIndicator ("typing-" ++ toString now)
          (addTypingIndicator now
            { (addMessage (trimString messageRaw) "user" s) with
              lastMessageCount := s.lastMessageCount + 1 }).2, []) := by
    simp [sendMessageT, sendMessageFull, hmsg, hemail, hresp, addTypingIndicator]
  set s4 := removeTypingIndicator ("typing-" ++ toString now)
    (addTypingIndicator now
      { (addMessage (trimString messageRaw) "user" s) with
        lastMessageCount := s.lastMessageCount + 1 }).2 with hs4
  have hseen : s4.displayedMessageIds = s.displayedMessageIds := rfl
  have hpoll : s4.isPolling = false := hidle
  have hr := pollMessagesT_renders emailRaw msgs (s4, []) m hm (Or.inl hrole)
    (by rw [hseen]; exact hfresh) hnodup hpoll hemail
  rw [hsend]
  constructor
  · rw [← hcontent]
    exact hr.2.2
  · have hlow := runPolls_count_mono m.id emailRaw laterResps
      (pollMessagesT emailRaw (PollResponse.success msgs) (s4, []))
    have hb := runPolls_budget m.id emailRaw laterResps
      (pollMessagesT emailRaw (PollResponse.success msgs) (s4, []))
    have hcle : (runPolls emailRaw laterResps
        (pollMessagesT emailRaw (PollResponse.success msgs) (s4, []))).2.count m.id ≤
        renderBudget m.id
          (runPolls emailRaw laterResps
            (pollMessagesT emailRaw (PollResponse.success msgs) (s4, []))).1.displayedMessageIds
          (runPolls emailRaw laterResps
            (pollMessagesT emailRaw (PollResponse.success msgs) (s4, []))).2 :=
      Nat.le_add_right _ _
    have hmid : renderBudget m.id
        (pollMessagesT emailRaw (PollResponse.success msgs) (s4, [])).1.displayedMessageIds
        (pollMessagesT emailRaw (PollResponse.success msgs) (s4, [])).2 = 1 := by
      simp [renderBudget, hr.2.1, hr.1]
    omega

/-- Witness for C2 at a concrete successful turn. -/
theorem send_no_lost_turn_witness :
    Node.message "hello" "assistant" ∈
      (sendMessageT "hi" "a@b" 5 (ChatResult.success "hello")
        (PollResponse.success [⟨2, "assistant", "hello"⟩])
        ((⟨[], [], 0, false⟩ : SyncState), [])).1.chatDisplay ∧
    (runPolls "a@b" [PollResponse.success [⟨2, "assistant", "hello"⟩]]
        (sendMessageT "hi" "a@b" 5 (ChatResult.success "hello")
          (PollResponse.success [⟨2, "assistant", "hello"⟩])
          ((⟨[], [], 0, false⟩ : SyncState), []))).2.count 2 = 1 :=
  send_no_lost_turn "hi" "a@b" 5 "hello" [⟨2, "assistant", "hello"⟩]
    ⟨2, "assistant", "hello"⟩ ⟨[], [], 0, false⟩
    [PollResponse.success [⟨2, "assistant", "hello"⟩]]
    (by decide) (by decide) (by decide) rfl (by decide) rfl rfl (by decide) (by decide)

/-- C3: while a poll is in flight (`isPolling = true`), a second poll
invocation of either variant issues no network request and leaves the
state, the dedup ledger, `lastMessageCount` and the render trace untouched. -/
theorem poll_mutual_exclusion (email : String) (resp : PollResponse)
    (s : SyncState) (trace : List Nat) (c : CountState) (tracec : List Nat)
    (hs : s.isPolling = true) (hc : c.isPolling = true) :
    pollMessagesFull email resp (s, trace) = ((s, trace), false) ∧
    pollMessagesCountFull email resp (c, tracec) = ((c, tracec), false) := by
  constructor
  · simp [pollMessagesFull, hs]
  · simp [pollMessagesCountFull, hc]

/-- Witness for C3 with a poll already in flight. -/
theorem poll_mutual_exclusion_witness :
    pollMessagesFull "a@b" PollResponse.badStatus ((⟨[], [], 0, true⟩ : SyncState), [])
        = (((⟨[], [], 0, true⟩ : SyncState), []), false) ∧
    pollMessagesCountFull "a@b" PollResponse.badStatus ((⟨[], 0, true⟩ : CountState), [])
        = (((⟨[], 0, true⟩ : CountState), []), false) :=
  poll_mutual_exclusion "a@b" PollResponse.badStatus ⟨[], [], 0, true⟩ []
    ⟨[], 0, true⟩ [] rfl rfl

/-- C4: a poll run of either variant that starts with the guard free ends
with `isPolling = false` on every completion path (decoded success,
non-success status, thrown transport/decode error). -/
theorem poll_guard_released (email : String) (resp : PollResponse)
    (s : SyncState) (trace : List Nat) (c : CountState) (tracec : List Nat)
    (hs : s.isPolling = false) (hc : c.isPolling = false) :
    (pollMessagesFull email resp (s, trace)).1.1.isPolling = false ∧
    (pollMessagesCountFull email resp (c, tracec)).1.1.isPolling = false := by
  constructor
  · unfold pollMessagesFull
    by_cases h2 : trimString email = "" <;>
      cases resp <;> simp [hs, h2]
  · unfold pollMessagesCountFull
    by_cases h2 : trimString email = ""
    · cases resp <;> simp [hc, h2]
    · cases resp with
      | success msgs =>
          by_cases h3 : c.lastMessageCount < msgs.length <;> simp [hc, h2, h3]
      | badStatus => simp [hc, h2]
      | failure => simp [hc, h2]

/-- Witness for C4 on all three completion paths of both variants. -/
theorem poll_guard_released_witness :
    (pollMessagesFull "a@b" (PollResponse.success [⟨1, "assistant", "x"⟩])
        ((⟨[], [], 0, false⟩ : SyncState), [])).1.1.isPolling = false ∧
    (pollMessagesCountFull "a@b" PollResponse.failure
        ((⟨[], 0, false⟩ : CountState), [])).1.1.isPolling = false :=
  ⟨(poll_guard_released "a@b" (PollResponse.success [⟨1, "assistant", "x"⟩])
      ⟨[], [], 0, false⟩ [] ⟨[], 0, false⟩ [] rfl rfl).1,
   (poll_guard_released "a@b" PollResponse.failure
      ⟨[], [], 0, false⟩ [] ⟨[], 0, false⟩ [] rfl rfl).2⟩

/-- C5: a send whose text or email is empty after trimming is a complete
no-op in both variants: no echo, no typing indicator, no chat request, no
state or trace mutation. -/
theorem send_validation_noop (messageRaw emailRaw : String) (now : Nat)
    (chat : ChatResult) (pollResp : PollResponse) (sl : SyncState × List Nat)
    (slc : CountState × List Nat)
    (h : trimString messageRaw = "" ∨ trimString emailRaw = "") :
    sendMessageFull messageRaw emailRaw now chat pollResp sl = (sl, false) ∧
    sendMessageCountFull messageRaw emailRaw now chat slc = (slc, false) := by
  constructor
  · simp [sendMessageFull, h]
  · simp [sendMessageCountFull, h]

/-- Witness for C5 with an all-whitespace message. -/
theorem send_validation_noop_witness :
    sendMessageFull "   " "a@b" 7 (ChatResult.success "yo") PollResponse.failure
        ((⟨[], [], 0, false⟩ : SyncState), []) = (((⟨[], [], 0, false⟩ : SyncState), []), false) ∧
    sendMessageCountFull "   " "a@b" 7 (ChatResult.success "yo")
        ((⟨[], 0, false⟩ : CountState), []) = (((⟨[], 0, false⟩ : CountState), []), false) :=
  send_validation_noop "   " "a@b" 7 (ChatResult.success "yo") PollResponse.failure
    ((⟨[], [], 0, false⟩ : SyncState), []) ((⟨[], 0, false⟩ : CountState), [])
    (Or.inl (by decide))

/-- C9: a poll cycle of either variant whose history fetch returns a
non-success status or throws changes nothing: transcript, dedup ledger,
`lastMessageCount` and render trace are exactly as before (the guard
toggles to polling and back within the run). -/
theorem poll_error_atomic (email : String) (s : SyncState) (trace : List Nat)
    (c : CountState) (tracec : List Nat) :
    (pollMessagesFull email PollResponse.badStatus (s, trace)).1 = (s, trace) ∧
    (pollMessagesFull email PollResponse.failure (s, trace)).1 = (s, trace) ∧
    (pollMessagesCountFull email PollResponse.badStatus (c, tracec)).1 = (c, tracec) ∧
    (pollMessagesCountFull email PollResponse.failure (c, tracec)).1 = (c, tracec) := by
  refine ⟨?_, ?_, ?_, ?_⟩ <;>
    [skip; skip;
     (by_cases h1 : c.isPolling = true; · simp [pollMessagesCountFull, h1];
      · rw [Bool.not_eq_true] at h1;
        by_cases h2 : trimString email = "" <;>
          simp [pollMessagesCountFull, h1, h2, setPollingC_self c h1]);
     (by_cases h1 : c.isPolling = true; · simp [pollMessagesCountFull, h1];
      · rw [Bool.not_eq_true] at h1;
        by_cases h2 : trimString email = "" <;>
          simp [pollMessagesCountFull, h1, h2, setPollingC_self c h1])] <;>
    (by_cases h1 : s.isPolling = true; · simp [pollMessagesFull, h1];
     · rw [Bool.not_eq_true] at h1;
       by_cases h2 : trimString email = "" <;>
         simp [pollMessagesFull, h1, h2, setPolling_self s h1])

/-- `eraseP` is the identity on a list with no satisfying element. -/
theorem eraseP_id_of_forall_not (p : Node → Bool) (l : List Node)
    (h : ∀ n ∈ l, p n = false) : l.eraseP p = l := by
  induction l with
  | nil => rfl
  | cons a l ih =>
      have ha := h a (List.mem_cons_self a l)
      simp only [List.eraseP_cons, ha, cond_false]
      rw [ih (fun n hn => h n (List.mem_cons_of_mem a hn))]

/-- `eraseP` distributes over an append whose first part has no satisfying
element. -/
theorem eraseP_append_of_forall_not (p : Node → Bool) (l1 l2 : List Node)
    (h : ∀ n ∈ l1, p n = false) : (l1 ++ l2).eraseP p = l1 ++ l2.eraseP p := by
  induction l1 with
  | nil => rfl
  | cons a l ih =>
      have ha := h a (List.mem_cons_self a l)
      simp only [List.cons_append, List.eraseP_cons, ha, cond_false]
      rw [ih (fun n hn => h n (List.mem_cons_of_mem a hn))]

/-- `eraseP` is idempotent on a list with at most one satisfying element. -/
theorem eraseP_idem_of_countP_le_one (p : Node → Bool) (l : List Node)
    (h : l.countP p ≤ 1) : (l.eraseP p).eraseP p = l.eraseP p := by
  induction l with
  | nil => rfl
  | cons a l ih =>
      by_cases ha : p a = true
      · have hcount : l.countP p = 0 := by
          simp only [List.countP_cons, ha, if_true] at h
          omega
        have hnone : ∀ n ∈ l, p n = false := by
          intro n hn
          have := List.countP_eq_zero.mp hcount n hn
          simpa using this
        simp only [List.eraseP_cons, ha, cond_true]
        exact eraseP_id_of_forall_not p l hnone
      · have ha' : p a = false := by simpa using ha
        have hl : l.countP p ≤ 1 := by
          simp only [List.countP_cons, ha', if_false] at h
          omega
        simp only [List.eraseP_cons, ha', cond_false]
        rw [ih hl]

/-- C6: a validated send whose chat request throws (transport or decode
failure) appends exactly the local echo and one synthetic assistant error
entry, removes the typing indicator, issues the single chat request, and
leaves the dedup ledger and render trace untouched (so no later poll can
duplicate the failed attempt). -/
theorem send_failure_single_error_entry (messageRaw emailRaw : String) (now : Nat)
    (pollResp : PollResponse) (s : SyncState) (trace : List Nat)
    (hmsg : trimString messageRaw ≠ "") (hemail : trimString emailRaw ≠ "")
    (hfreshId : ∀ n ∈ s.chatDisplay, nodeHasId ("typing-" ++ toString now) n = false) :
    sendMessageFull messageRaw emailRaw now ChatResult.failure pollResp (s, trace) =
      ((({ s with
            chatDisplay := s.chatDisplay ++
              [Node.message (trimString messageRaw) "user",
               Node.message "Connection error. Is the backend running?" "assistant"],
            lastMessageCount := s.lastMessageCount + 1 }), trace), true) := by
  have herase : (s.chatDisplay ++ [Node.message (trimString messageRaw) "user",
      Node.typing ("typing-" ++ toString now)]).eraseP
        (nodeHasId ("typing-" ++ toString now)) =
      s.chatDisplay ++ [Node.message (trimString messageRaw) "user"] := by
    rw [eraseP_append_of_forall_not _ _ _ hfreshId]
    simp [List.eraseP_cons, nodeHasId]
  simp [sendMessageFull, hmsg, hemail, addTypingIndicator, addMessage,
    removeTypingIndicator, herase, List.append_assoc]

/-- Witness for C6 at a concrete failing send. -/
theorem send_failure_single_error_entry_witness :
    sendMessageFull "hi" "a@b" 9 ChatResult.failure PollResponse.badStatus
        ((⟨[], [], 0, false⟩ : SyncState), []) =
      ((({ chatDisplay :=
            [Node.message "hi" "user",
             Node.message "Connection error. Is the backend running?" "assistant"],
           displayedMessageIds := [], lastMessageCount := 1,
           isPolling := false } : SyncState), []), true) := by
  have h := send_failure_single_error_entry "hi" "a@b" 9 PollResponse.badStatus
    ⟨[], [], 0, false⟩ [] (by decide) (by decide) (by intro n hn; cases hn)
  simpa using h

/-- C7: `hideTyping` is idempotent: on a token with no matching placeholder
in the transcript it is a no-op, and (with DOM ids unique, so a token has at
most one placeholder) applying it twice equals applying it once. -/
theorem removeTypingIndicator_idempotent (tok : String) (s : SyncState) :
    ((∀ n ∈ s.chatDisplay, nodeHasId tok n = false) →
      removeTypingIndicator tok s = s) ∧
    (s.chatDisplay.countP (nodeHasId tok) ≤ 1 →
      removeTypingIndicator tok (removeTypingIndicator tok s) =
        removeTypingIndicator tok s) := by
  constructor
  · intro h
    have := eraseP_id_of_forall_not (nodeHasId tok) s.chatDisplay h
    simp [removeTypingIndicator, this]
  · intro h
    have := eraseP_idem_of_countP_le_one (nodeHasId tok) s.chatDisplay h
    simp [removeTypingIndicator, this]

/-- Witness for C7: an unknown token is a no-op; a once-shown token removed
twice equals removed once. -/
theorem removeTypingIndicator_idempotent_witness :
    removeTypingIndicator "typing-3" ⟨[Node.message "x" "user"], [], 0, false⟩ =
      (⟨[Node.message "x" "user"], [], 0, false⟩ : SyncState) ∧
    removeTypingIndicator "typing-3"
        (removeTypingIndicator "typing-3"
          ⟨[Node.message "x" "user", Node.typing "typing-3"], [], 0, false⟩) =
      removeTypingIndicator "typing-3"
        ⟨[Node.message "x" "user", Node.typing "typing-3"], [], 0, false⟩ :=
  ⟨(removeTypingIndicator_idempotent "typing-3"
      ⟨[Node.message "x" "user"], [], 0, false⟩).1 (by decide),
   (removeTypingIndicator_idempotent "typing-3"
      ⟨[Node.message "x" "user", Node.typing "typing-3"], [], 0, false⟩).2 (by decide)⟩

/-- C8: the two dedup strategies diverge.  When the second history response
returns the entries out of prior order (new entry first), the count-slicing
poll re-renders the already-shown entry (id 1 appears twice in its render
trace) and never renders the unseen entry (id 2 is absent), while the id-set
poll renders each unseen id exactly once. -/
theorem dedup_strategies_not_equivalent :
    (runPollsCount "a@b" [PollResponse.success [⟨1, "assistant", "alpha"⟩],
        PollResponse.success [⟨2, "assistant", "beta"⟩, ⟨1, "assistant", "alpha"⟩]]
      ((⟨[], 0, false⟩ : CountState), [])).2 = [1, 1] ∧
    (runPolls "a@b" [PollResponse.success [⟨1, "assistant", "alpha"⟩],
        PollResponse.success [⟨2, "assistant", "beta"⟩, ⟨1, "assistant", "alpha"⟩]]
      ((⟨[], [], 0, false⟩ : SyncState), [])).2 = [1, 2] := by
  constructor <;> decide

/-- One count-variant processing step only appends assistant-classed
message bubbles to the transcript. -/
theorem processMessageCountT_display_append (sl : CountState × List Nat) (m : Msg) :
    ∃ t, (processMessageCountT sl m).1.chatDisplay = sl.1.chatDisplay ++ t ∧
      ∀ n ∈ t, ∃ c, n = Node.message c "assistant" := by
  by_cases h : m.role = "assistant" ∨ m.role = "human"
  · refine ⟨[Node.message m.content "assistant"], ?_, ?_⟩
    · simp [processMessageCountT, h, addMessageC]
    · intro n hn
      simp only [List.mem_singleton] at hn
      exact ⟨m.content, hn⟩
  · exact ⟨[], by simp [processMessageCountT, h], by simp⟩

/-- Fold version of `processMessageCountT_display_append`. -/
theorem foldl_display_append_count (msgs : List Msg) (sl : CountState × List Nat) :
    ∃ t, (msgs.foldl processMessageCountT sl).1.chatDisplay = sl.1.chatDisplay ++ t ∧
      ∀ n ∈ t, ∃ c, n = Node.message c "assistant" := by
  induction msgs generalizing sl with
  | nil => exact ⟨[], by simp, by simp⟩
  | cons m rest ih =>
      obtain ⟨t1, ht1, ha1⟩ := processMessageCountT_display_append sl m
      obtain ⟨t2, ht2, ha2⟩ := ih (processMessageCountT sl m)
      refine ⟨t1 ++ t2, ?_, ?_⟩
      · simp only [List.foldl_cons, ht2, ht1, List.append_assoc]
      · intro n hn
        rcases List.mem_append.mp hn with h | h
        · exact ha1 n h
        · exact ha2 n h

/-- C10: whatever poll renders — in either variant — is appended with
display sender "assistant", even entries whose backend role is "human"; and
in the id-set variant a fresh human-role entry of a duplicate-free history
is indeed rendered (as an assistant bubble). -/
theorem poll_renders_display_sender_assistant (email : String) (resp : PollResponse)
    (s : SyncState) (trace : List Nat) (c : CountState) (tracec : List Nat) :
    (∃ t, (pollMessagesT email resp (s, trace)).1.chatDisplay = s.chatDisplay ++ t ∧
      ∀ n ∈ t, ∃ content, n = Node.message content "assistant") ∧
    (∃ t, (pollMessagesCountT email resp (c, tracec)).1.chatDisplay = c.chatDisplay ++ t ∧
      ∀ n ∈ t, ∃ content, n = Node.message content "assistant") ∧
    (∀ msgs m, m ∈ msgs → m.role = "human" → m.id ∉ s.displayedMessageIds →
      (msgs.map Msg.id).Nodup → s.isPolling = false → trimString email ≠ "" →
      Node.message m.content "assistant" ∈
        (pollMessagesT email (PollResponse.success msgs) (s, trace)).1.chatDisplay) := by
  refine ⟨?_, ?_, ?_⟩
  · unfold pollMessagesT pollMessagesFull
    by_cases h1 : s.isPolling = true
    · exact ⟨[], by simp [h1], by simp⟩
    · rw [Bool.not_eq_true] at h1
      by_cases h2 : trimString email = ""
      · exact ⟨[], by simp [h1, h2], by simp⟩
      · cases resp with
        | success msgs =>
            obtain ⟨t, ht, ha⟩ := foldl_display_append msgs
              (({ s with isPolling := true } : SyncState), trace)
            exact ⟨t, by simp only [h1, h2, Bool.false_eq_true, if_false, if_neg,
              not_false_iff]; simpa using ht, ha⟩
        | badStatus => exact ⟨[], by simp [h1, h2], by simp⟩
        | failure => exact ⟨[], by simp [h1, h2], by simp⟩
  · unfold pollMessagesCountT pollMessagesCountFull
    by_cases h1 : c.isPolling = true
    · exact ⟨[], by simp [h1], by simp⟩
    · rw [Bool.not_eq_true] at h1
      by_cases h2 : trimString email = ""
      · exact ⟨[], by simp [h1, h2], by simp⟩
      · cases resp with
        | success msgs =>
            by_cases h3 : c.lastMessageCount < msgs.length
            · obtain ⟨t, ht, ha⟩ := foldl_display_append_count
                (msgs.drop c.lastMessageCount)
                (({ c with isPolling := true } : CountState), tracec)
              exact ⟨t, by simp only [h1, h2, h3, Bool.false_eq_true, if_false, if_neg,
                not_false_iff, if_true]; simpa using ht, ha⟩
            · exact ⟨[], by simp [h1, h2, h3], by simp⟩
        | badStatus => exact ⟨[], by simp [h1, h2], by simp⟩
        | failure => exact ⟨[], by simp [h1, h2], by simp⟩
  · intro msgs m hm hrole hfresh hnodup hidle hemail
    exact (pollMessagesT_renders email msgs ((s, trace)) m hm (Or.inr hrole)
      hfresh hnodup hidle hemail).2.2

/-- Witness for C10: a concrete human-role entry is rendered as an
assistant bubble by the id-set poll. -/
theorem poll_renders_display_sender_assistant_witness :
    Node.message "agent reply" "assistant" ∈
      (pollMessagesT "a@b" (PollResponse.success [⟨7, "human", "agent reply"⟩])
        ((⟨[], [], 0, false⟩ : SyncState), [])).1.chatDisplay :=
  (poll_renders_display_sender_assistant "a@b"
      (PollResponse.success [⟨7, "human", "agent reply"⟩])
      ⟨[], [], 0, false⟩ [] ⟨[], 0, false⟩ []).2.2
    [⟨7, "human", "agent reply"⟩] ⟨7, "human", "agent reply"⟩
    (by decide) rfl (by decide) (by decide) rfl (by decide)
